import Mathlib

/-!
Verification development for the `AsyncCaller` orchestration engine
(`src/index.ts` of `@grapelaw/async-caller`).

The TypeScript source is shallowly embedded below:

* pure helpers (`extractStatusCodeProperties`, `isClientSideError`,
  `isRateLimitedError`, `calculateDefaultDelay`, `calculateRetryDelay`)
  become Lean functions over explicit models of the JavaScript values
  they inspect;
* the retry loop `executeWithRetry` becomes a recursive function over
  an attempt-indexed behaviour of the wrapped operation, returning the
  final outcome together with the list of attempt numbers at which the
  operation was invoked (the `await`ed sleeps and token waits only
  consume time and are elided from the single-call model; the delay
  arithmetic itself is embedded separately as `calculateRetryDelay`);
* the admission queue (`call` / `processTaskQueue` /
  `executeAndHandleErrors`) becomes a small event system whose steps
  mirror the well-defined suspension points of the single-threaded
  event loop.

`Number.parseInt` and JavaScript truthiness are modelled explicitly;
`Date.parse` is a parameter (an arbitrary partial function from strings
to epoch milliseconds), since its full grammar is irrelevant to the
claims.
-/

namespace AsyncCaller

/-- Model of a JavaScript value found at one of the status-code candidate
locations: a number (with `NaN` separated out, since
`typeof NaN === "number"` but `Number.isNaN` rejects it), a string, or
anything else (`undefined`, objects, booleans, ...), which the coercion
in `extractStatusCodeProperties` discards. -/
inductive StatusVal : Type
  | num (n : ℤ)
  | nan
  | str (s : String)
  | other
  deriving DecidableEq, Repr

/-- Model of the nested `response` object: only the fields the classifier
reads, plus the camelCase `statusCode` field that the source never
reads (kept in the model so that theorems about unread fields are
meaningful). -/
structure RespObj : Type where
  status : Option StatusVal := none
  statuscode : Option StatusVal := none
  statusCode : Option StatusVal := none
  deriving DecidableEq, Repr

/-- Model of an arbitrary error / response value as far as the default
classifier inspects it.  Fields mirror the property accesses in
`extractStatusCodeProperties`: `err?.status`, `err?.response?.status`,
`err?.statuscode`, `err?.response?.statuscode`, `err?.code`; the
camelCase `statusCode` is carried but never read by the source. -/
structure ErrObj : Type where
  status : Option StatusVal := none
  statuscode : Option StatusVal := none
  statusCode : Option StatusVal := none
  code : Option StatusVal := none
  response : Option RespObj := none
  deriving DecidableEq, Repr

/-- Characters `Number.parseInt` skips as leading whitespace (the common
ASCII subset of the ECMAScript WhiteSpace / LineTerminator classes). -/
def jsWhitespace (c : Char) : Bool :=
  c = ' ' || c = '\t' || c = '\n' || c = '\r' || c = '\x0b' || c = '\x0c'

/-- Value of one digit character in the given base, as `parseInt` reads
digits (`0`-`9`, `a`-`z`, `A`-`Z`). -/
def digitVal (base : ℕ) (c : Char) : Option ℕ :=
  let v : Option ℕ :=
    if '0' ≤ c ∧ c ≤ '9' then some (c.toNat - '0'.toNat)
    else if 'a' ≤ c ∧ c ≤ 'z' then some (c.toNat - 'a'.toNat + 10)
    else if 'A' ≤ c ∧ c ≤ 'Z' then some (c.toNat - 'A'.toNat + 10)
    else none
  match v with
  | some v => if v < base then some v else none
  | none => none

/-- Accumulate the longest prefix of digits of `base`, starting from
`acc`; stops at the first non-digit, as `parseInt` does. -/
def parseDigitsAux (base : ℕ) : List Char → ℕ → ℕ
  | [], acc => acc
  | c :: cs, acc =>
    match digitVal base c with
    | some v => parseDigitsAux base cs (acc * base + v)
    | none => acc

/-- Longest digit prefix of `cs` in `base`; `none` when there is no
leading digit at all (`parseInt` then returns `NaN`). -/
def parseDigits (base : ℕ) : List Char → Option ℕ
  | [] => none
  | c :: cs =>
    match digitVal base c with
    | some v => some (parseDigitsAux base cs v)
    | none => none

/-- Model of `Number.parseInt(s)` (radix argument omitted, as in the
source): skip leading whitespace, read an optional sign, switch to base
16 after a `0x`/`0X` prefix, then take the longest digit prefix;
`none` models `NaN`. -/
def jsParseInt (s : String) : Option ℤ :=
  let cs := s.toList.dropWhile jsWhitespace
  let signed : Bool × List Char :=
    match cs with
    | '-' :: rest => (true, rest)
    | '+' :: rest => (false, rest)
    | _ => (false, cs)
  let based : ℕ × List Char :=
    match signed.2 with
    | '0' :: 'x' :: rest => (16, rest)
    | '0' :: 'X' :: rest => (16, rest)
    | _ => (10, signed.2)
  match parseDigits based.1 based.2 with
  | none => none
  | some n => some (if signed.1 then -(n : ℤ) else (n : ℤ))

/-- The coercion applied to each candidate in the `map` of
`extractStatusCodeProperties`: a non-`NaN` number is kept, a string is
kept when `Number.parseInt` succeeds on it, everything else becomes
`undefined` (`none`). -/
def coerceStatus : Option StatusVal → Option ℤ
  | some (.num n) => some n
  | some .nan => none
  | some (.str s) => jsParseInt s
  | some .other => none
  | none => none

/-- The raw candidate array built at the top of
`extractStatusCodeProperties`:
`[err?.status, err?.response?.status, err?.statuscode,`
`err?.response?.statuscode, err?.code]`. -/
def rawCandidates (err : ErrObj) : List (Option StatusVal) :=
  [err.status,
   (err.response.bind fun r => r.status),
   err.statuscode,
   (err.response.bind fun r => r.statuscode),
   err.code]

/-- Embedding of `extractStatusCodeProperties`: map the coercion over the
candidate array, then `filter(Boolean)`, which drops `undefined` and
also the (falsy) number `0`. -/
def extractStatusCodeProperties (err : ErrObj) : List ℤ :=
  ((rawCandidates err).filterMap coerceStatus).filter (fun n => n ≠ 0)

/-- Embedding of `isClientSideError`: some extracted status code lies in
`[400, 500)`. -/
def isClientSideError (errOrResponse : ErrObj) : Bool :=
  (extractStatusCodeProperties errOrResponse).any
    (fun property => 400 ≤ property && property < 500)

/-- Embedding of `isRateLimitedError`: some extracted status code equals
`429`. -/
def isRateLimitedError (errOrResponse : ErrObj) : Bool :=
  (extractStatusCodeProperties errOrResponse).any (fun property => property = 429)

/-- Embedding of `RetryOptions`, with the library's defaults as the
field defaults.  The source reads the fields with non-null assertions,
so the model makes them total. -/
structure RetryOptions : Type where
  maxRetries : ℕ := 3
  minDelayInMs : ℕ := 1000
  maxDelayInMs : ℕ := 10000
  backoffFactor : ℕ := 2
  deriving DecidableEq, Repr

/-- The `defaultRetryOptions` constant of the source. -/
def defaultRetryOptions : RetryOptions := {}

/-- Embedding of `calculateDefaultDelay`: exponential back-off
`min(minDelayInMs * backoffFactor ^ (completedTryCount - 1), maxDelayInMs)`. -/
def calculateDefaultDelay (opts : RetryOptions) (completedTryCount : ℕ) : ℕ :=
  min (opts.minDelayInMs * opts.backoffFactor ^ (completedTryCount - 1))
    opts.maxDelayInMs

/-- Model of the headers-like argument of `calculateRetryDelay`: both the
`headers.get("Retry-After")` and the `headers["Retry-After"]` access
paths of the source reduce to looking up the `Retry-After` entry, so
the model keeps just that entry. -/
structure HeadersObj : Type where
  retryAfter : Option String := none
  deriving DecidableEq, Repr

/-- Embedding of `calculateRetryDelay`.  `dateParse` models `Date.parse`
(`none` for `NaN`) and `now` models `new Date().getTime()`; both are
parameters because the source consults ambient time.  The result is
the returned delay paired with the argument passed to
`tokenBucket.forceWaitUntilMilisecondsPassed` when that side effect
happens (`none` when it does not).  A present-but-empty header string
is falsy in the source's `if (retryAfterHeader)` test and falls back to
the default strategy. -/
def calculateRetryDelay (opts : RetryOptions) (dateParse : String → Option ℤ)
    (now : ℤ) (completedTryCount : ℕ) (headers : Option HeadersObj) :
    ℤ × Option ℤ :=
  match headers with
  | some h =>
    match h.retryAfter with
    | some retryAfterHeader =>
      if retryAfterHeader ≠ "" then
        match jsParseInt retryAfterHeader with
        | some k => (k * 1000, some (k * 1000))
        | none =>
          match dateParse retryAfterHeader with
          | some t =>
            if t > 0 then
              (max (t - now) 0, some (max (t - now) 0))
            else
              ((calculateDefaultDelay opts completedTryCount : ℤ), none)
          | none => ((calculateDefaultDelay opts completedTryCount : ℤ), none)
      else ((calculateDefaultDelay opts completedTryCount : ℤ), none)
    | none => ((calculateDefaultDelay opts completedTryCount : ℤ), none)
  | none => ((calculateDefaultDelay opts completedTryCount : ℤ), none)

/-- Outcome of one invocation of the wrapped operation: the promise
either resolves with a result or rejects with an error. -/
inductive Outcome (α ε : Type) : Type
  | resolved (result : α)
  | rejected (err : ε)
  deriving DecidableEq, Repr

/-- A classification verdict, as produced by a `ResultIdentifier`. -/
structure Verdict : Type where
  isRateLimited : Bool
  isClientSideError : Bool
  deriving DecidableEq, Repr

/-- The `identifyResult` half of the source's
`defaultResponseIdentifier`. -/
def defaultIdentifyResult (response : ErrObj) : Verdict :=
  { isRateLimited := isRateLimitedError response,
    isClientSideError := isClientSideError response }

/-- The `identifyError` half of the source's
`defaultResponseIdentifier`. -/
def defaultIdentifyError (error : ErrObj) : Verdict :=
  { isRateLimited := isRateLimitedError error,
    isClientSideError := isClientSideError error }

/-- Embedding of `executeWithRetry`.  The wrapped operation `fn` is
modelled as a function from the attempt number (the source's
`tryCount`, starting at `1`) to that attempt's outcome.  The value is
the call's final outcome (`Except.error e` models `throw e`; on the
dead `tryCount > maxRetries + 1` guard with no stored error the source
returns the possibly-`undefined` `lastResponse`, hence `Option α` in
the `ok` channel) paired with the list of attempt numbers at which `fn`
was invoked.

The source builds `fn().then(onResolved).catch(onRejected)`.  Because
the `.catch` is chained after the `.then`, it handles not only a
rejection of `fn()` itself but also a rejection of the recursive
`executeWithRetry(fn, tryCount + 1, fetchResult, lastError)` call that
the rate-limited-resolved branch of `onResolved` returns: that error is
re-caught at this level's `tryCount` and — unless the catch handler's
own checks stop it — retried once more via
`executeWithRetry(fn, tryCount + 1, lastResponse, err)` (with this
level's original `lastResponse`, not `fetchResult`).  The interception
is modelled by matching on the nested run's outcome and, on an error,
inlining the catch handler's body (its `tryCount === maxRetries + 1`
check included, though it is unreachable there since the branch
requires `tryCount ≠ maxRetries + 1`).  A rejection of a recursion
made by the catch handler itself has no further handler at this level
and propagates to the caller.

The token-bucket wait and the back-off sleep before a recursive call
only consume time and are elided here; the delay arithmetic is
embedded separately as `calculateRetryDelay`. -/
def executeWithRetry {α ε : Type} (maxRetries : ℕ)
    (identifyResult : α → Verdict) (identifyError : ε → Verdict)
    (fn : ℕ → Outcome α ε) (tryCount : ℕ)
    (lastResponse : Option α) (lastError : Option ε) :
    Except ε (Option α) × List ℕ :=
  if h1 : tryCount > maxRetries + 1 then
    match lastError with
    | some e => (.error e, [])
    | none => (.ok lastResponse, [])
  else
    match fn tryCount with
    | .resolved result =>
      if h2 : tryCount = maxRetries + 1 then
        (.ok (some result), [tryCount])
      else if (identifyResult result).isRateLimited then
        match executeWithRetry maxRetries identifyResult identifyError
            fn (tryCount + 1) (some result) lastError with
        | (.ok v, trace) => (.ok v, tryCount :: trace)
        | (.error err, trace) =>
          if tryCount = maxRetries + 1 then
            (.error err, tryCount :: trace)
          else if (identifyError err).isClientSideError
              && !(identifyError err).isRateLimited then
            (.error err, tryCount :: trace)
          else
            let rest := executeWithRetry maxRetries identifyResult
              identifyError fn (tryCount + 1) lastResponse (some err)
            (rest.1, (tryCount :: trace) ++ rest.2)
      else
        (.ok (some result), [tryCount])
    | .rejected err =>
      if h2 : tryCount = maxRetries + 1 then
        (.error err, [tryCount])
      else if (identifyError err).isClientSideError
          && !(identifyError err).isRateLimited then
        (.error err, [tryCount])
      else
        let rest := executeWithRetry maxRetries identifyResult identifyError
          fn (tryCount + 1) lastResponse (some err)
        (rest.1, tryCount :: rest.2)
termination_by maxRetries + 2 - tryCount
decreasing_by
  all_goals omega

/-- State of one `AsyncCaller` instance, as far as `call`,
`processTaskQueue` and `executeAndHandleErrors` touch it.  Calls are
identified by the order of submission (`nextId` numbers them).  Besides
the source's `queue` (pending admission-promise resolvers, oldest
first) and `runningTasks` counter, the state tracks where each
admitted call currently is in its own control flow:

* `admitted` — `resolve()` has been invoked by `processTaskQueue` (the
  counter was incremented for this call) but the call's continuation
  has not yet run;
* `waitingToken` — the continuation has run: `executeAndHandleErrors`
  entered its `try`, `executeWithRetry` started and suspended at
  `await this._tokenBucket.consumeAsync()`, and — because the `try`
  block does `return this.executeWithRetry(...)` without `await`, which
  completes the `try` block as soon as the promise object is created —
  the `finally` has already executed `this.runningTasks--` and
  `this.processTaskQueue()`; the call now merely awaits a token;
* `inFlight` — a token was granted and the wrapped operation `fn()` is
  executing;
* `done` — the operation settled (later attempts of a retrying call do
  not matter for the admission bookkeeping and are elided).

`startedOrder` records the order in which calls were granted slots by
`processTaskQueue`. -/
structure CallerState : Type where
  queue : List ℕ := []
  runningTasks : ℕ := 0
  admitted : List ℕ := []
  waitingToken : List ℕ := []
  inFlight : List ℕ := []
  done : List ℕ := []
  startedOrder : List ℕ := []
  nextId : ℕ := 0
  deriving DecidableEq, Repr

/-- Embedding of `processTaskQueue`: while `runningTasks < concurrency`
and the queue is non-empty, increment `runningTasks`, shift the oldest
resolver off the queue, and invoke it (moving that call to `admitted`
and recording it in `startedOrder`). -/
def processTaskQueue (concurrency : ℕ) (s : CallerState) : CallerState :=
  match h : s.queue with
  | [] => s
  | id :: rest =>
    if s.runningTasks < concurrency then
      processTaskQueue concurrency
        { s with
          queue := rest,
          runningTasks := s.runningTasks + 1,
          admitted := s.admitted ++ [id],
          startedOrder := s.startedOrder ++ [id] }
    else s
termination_by s.queue.length
decreasing_by simp [h]

/-- One scheduling step of the single-threaded event loop, restricted to
the synchronous segments of the source between its `await` points:

* `submit` — the body of `call` before its first `await`: push the
  admission resolver, run `processTaskQueue`;
* `release` — the continuation of an admitted call: it runs
  `executeAndHandleErrors`, whose `try` block evaluates
  `this.executeWithRetry(fn, 1, undefined)` (which suspends at the
  token-bucket `await` before invoking `fn`) and returns the promise
  without awaiting it, so the `finally` immediately runs
  `this.runningTasks--; this.processTaskQueue();` — the slot is
  released while the call is still waiting for its first token;
* `grantToken` — `consumeAsync` resolves `true` for a waiting call and
  `executeWithRetry` proceeds to invoke the wrapped operation;
* `finishOp` — the in-flight operation settles. -/
inductive Step (concurrency : ℕ) : CallerState → CallerState → Prop
  | submit (s : CallerState) :
      Step concurrency s (processTaskQueue concurrency
        { s with queue := s.queue ++ [s.nextId], nextId := s.nextId + 1 })
  | release (s : CallerState) (id : ℕ) (h : id ∈ s.admitted) :
      Step concurrency s (processTaskQueue concurrency
        { s with
          admitted := s.admitted.erase id,
          waitingToken := s.waitingToken ++ [id],
          runningTasks := s.runningTasks - 1 })
  | grantToken (s : CallerState) (id : ℕ) (h : id ∈ s.waitingToken) :
      Step concurrency s
        { s with
          waitingToken := s.waitingToken.erase id,
          inFlight := s.inFlight ++ [id] }
  | finishOp (s : CallerState) (id : ℕ) (h : id ∈ s.inFlight) :
      Step concurrency s
        { s with inFlight := s.inFlight.erase id, done := s.done ++ [id] }

/-- The state of a freshly constructed `AsyncCaller`. -/
def initState : CallerState := {}

/-- A state is reachable when some finite sequence of event-loop steps
leads to it from the initial state. -/
def Reachable (concurrency : ℕ) (s : CallerState) : Prop :=
  Relation.ReflTransGen (Step concurrency) initState s

/-- A sample error value carrying a 404 status, as produced e.g. by a
fetch-style response object. -/
def sample404 : ErrObj := { status := some (.num 404) }

/-- A sample error value carrying a 429 status; note that 429 lies in
`[400, 500)`, so the default classifier marks it both rate-limited and
client-side. -/
def sample429 : ErrObj := { status := some (.num 429) }

/-- A sample error value whose only status-bearing field is the
camelCase `statusCode` spelling, which the source never reads. -/
def sampleCamel404 : ErrObj := { statusCode := some (.num 404) }

/-- A sample error value with no status information at all. -/
def sampleGeneric : ErrObj := {}

/-- A mixed behaviour of the wrapped operation: attempt 1 resolves with
a 429-status result, every later attempt rejects with a status-less
error. -/
def mixedFn : ℕ → Outcome ErrObj ErrObj := fun n =>
  if n = 1 then .resolved sample429 else .rejected sampleGeneric

/-- The caller state after one submission to a fresh instance with
`concurrency = 2`: the call was admitted immediately. -/
def exampleSubmitted : CallerState :=
  { queue := [], runningTasks := 1, admitted := [0], startedOrder := [0],
    nextId := 1 }

/-- Concurrency-1 scenario, step 1: first call submitted and admitted at
once (`runningTasks = 1`). -/
def traceState1 : CallerState :=
  { queue := [], runningTasks := 1, admitted := [0], startedOrder := [0],
    nextId := 1 }

/-- Concurrency-1 scenario, step 2: second call submitted; the slot is
taken, so it queues. -/
def traceState2 : CallerState :=
  { queue := [1], runningTasks := 1, admitted := [0], startedOrder := [0],
    nextId := 2 }

/-- Concurrency-1 scenario, step 3: call 0's continuation runs — its
`finally` releases the slot before the operation starts, and
`processTaskQueue` immediately admits call 1. -/
def traceState3 : CallerState :=
  { runningTasks := 1, admitted := [1], waitingToken := [0],
    startedOrder := [0, 1], nextId := 2 }

/-- Concurrency-1 scenario, step 4: call 1's continuation likewise
releases its slot; both calls now await tokens. -/
def traceState4 : CallerState :=
  { waitingToken := [0, 1], startedOrder := [0, 1], nextId := 2 }

/-- Concurrency-1 scenario, step 5: call 0 obtains a token and its
wrapped operation starts. -/
def traceState5 : CallerState :=
  { waitingToken := [1], inFlight := [0], startedOrder := [0, 1],
    nextId := 2 }

/-- Concurrency-1 scenario, step 6: call 1 also obtains a token — two
wrapped operations now execute concurrently under `concurrency = 1`. -/
def traceState6 : CallerState :=
  { inFlight := [0, 1], startedOrder := [0, 1], nextId := 2 }

/-! ### Delay calculator -/

/-- C7: for every attempt count `n ≥ 1` the default back-off delay is
`min(minDelayInMs * backoffFactor ^ (n - 1), maxDelayInMs)`; with the
default options the delays for attempts 1–4 are exactly 1000, 2000,
4000, 8000 ms, and every attempt from 5 on is clamped to exactly
10000 ms. -/
theorem C7_default_backoff_schedule :
    (∀ (opts : RetryOptions) (n : ℕ), 1 ≤ n →
        calculateDefaultDelay opts n =
          min (opts.minDelayInMs * opts.backoffFactor ^ (n - 1))
            opts.maxDelayInMs)
    ∧ calculateDefaultDelay defaultRetryOptions 1 = 1000
    ∧ calculateDefaultDelay defaultRetryOptions 2 = 2000
    ∧ calculateDefaultDelay defaultRetryOptions 3 = 4000
    ∧ calculateDefaultDelay defaultRetryOptions 4 = 8000
    ∧ ∀ n : ℕ, 5 ≤ n → calculateDefaultDelay defaultRetryOptions n = 10000 := by
  refine ⟨fun opts n _ => rfl, by decide, by decide, by decide, by decide, ?_⟩
  intro n hn
  have h16 : (16 : ℕ) ≤ 2 ^ (n - 1) := by
    calc (16 : ℕ) = 2 ^ 4 := by norm_num
    _ ≤ 2 ^ (n - 1) := Nat.pow_le_pow_right (by norm_num) (by omega)
  unfold calculateDefaultDelay defaultRetryOptions
  simp only []
  generalize 2 ^ (n - 1) = x at h16 ⊢
  omega

/-- Closed instance of `C7_default_backoff_schedule`: attempt 9 with the
default options is clamped to 10000 ms. -/
theorem C7_default_backoff_schedule_witness :
    calculateDefaultDelay defaultRetryOptions 9 = 10000 :=
  C7_default_backoff_schedule.2.2.2.2.2 9 (by decide)

/-- C6: an integer-parsing `Retry-After` hint of `k` yields a delay of
exactly `k * 1000` ms and instructs the rate gate to withhold tokens
for that duration; `Retry-After: 5` yields exactly 5000 ms; a hint that
parses neither as an integer nor as a date falls back to the default
back-off for that attempt. -/
theorem C6_retry_after_hint :
    (∀ (opts : RetryOptions) (dateParse : String → Option ℤ) (now : ℤ)
        (n : ℕ) (h : HeadersObj) (s : String) (k : ℤ),
        h.retryAfter = some s → jsParseInt s = some k →
        calculateRetryDelay opts dateParse now n (some h) =
          (k * 1000, some (k * 1000)))
    ∧ (∀ (opts : RetryOptions) (dateParse : String → Option ℤ) (now : ℤ)
        (n : ℕ),
        calculateRetryDelay opts dateParse now n
            (some { retryAfter := some "5" }) = (5000, some 5000))
    ∧ (∀ (opts : RetryOptions) (dateParse : String → Option ℤ) (now : ℤ)
        (n : ℕ) (h : HeadersObj) (s : String),
        h.retryAfter = some s → jsParseInt s = none → dateParse s = none →
        (calculateRetryDelay opts dateParse now n (some h)).1 =
          (calculateDefaultDelay opts n : ℤ)) := by
  refine ⟨?_, ?_, ?_⟩
  · intro opts dateParse now n h s k hs hk
    have hne : s ≠ "" := by
      intro habs
      rw [habs] at hk
      exact Option.noConfusion ((by decide : jsParseInt "" = none) ▸ hk)
    simp [calculateRetryDelay, hs, hne, hk]
  · intro opts dateParse now n
    have h5 : jsParseInt "5" = some 5 := by decide
    simp [calculateRetryDelay, h5]
  · intro opts dateParse now n h s hs hint hdate
    rcases eq_or_ne s "" with rfl | hne
    · simp [calculateRetryDelay, hs]
    · simp [calculateRetryDelay, hs, hne, hint, hdate]

/-- Closed instance of `C6_retry_after_hint`: `Retry-After: 7` yields
7000 ms with a matching rate-gate instruction, and the unparseable hint
`soon` (with a date parser that rejects it) falls back to the default
back-off of attempt 3. -/
theorem C6_retry_after_hint_witness :
    calculateRetryDelay defaultRetryOptions (fun _ => none) 0 3
        (some { retryAfter := some "7" }) = (7000, some 7000)
    ∧ (calculateRetryDelay defaultRetryOptions (fun _ => none) 0 3
        (some { retryAfter := some "soon" })).1 =
      (calculateDefaultDelay defaultRetryOptions 3 : ℤ) :=
  ⟨C6_retry_after_hint.1 defaultRetryOptions (fun _ => none) 0 3
      { retryAfter := some "7" } "7" 7 rfl (by decide),
   C6_retry_after_hint.2.2 defaultRetryOptions (fun _ => none) 0 3
      { retryAfter := some "soon" } "soon" rfl (by decide) rfl⟩

/-- C2 as frozen is false: the integer `Retry-After` path returns the
hint times 1000 unclamped, so `Retry-After: 60` with the default
options (`maxDelayInMs = 10000`) yields 60000 ms, and `Retry-After: -5`
yields a negative delay of −5000 ms. -/
theorem C2_counterexample_unclamped_hint :
    (calculateRetryDelay defaultRetryOptions (fun _ => none) 0 1
        (some { retryAfter := some "60" })).1 = 60000
    ∧ (defaultRetryOptions.maxDelayInMs : ℤ) < 60000
    ∧ (calculateRetryDelay defaultRetryOptions (fun _ => none) 0 1
        (some { retryAfter := some "-5" })).1 = -5000
    ∧ (-5000 : ℤ) < 0 := by
  refine ⟨?_, by decide, ?_, by decide⟩
  · have h : jsParseInt "60" = some 60 := by decide
    simp [calculateRetryDelay, h]
  · have h : jsParseInt "-5" = some (-5) := by decide
    simp [calculateRetryDelay, h]

/-- C2 amended: the default back-off delay is always in
`[0, maxDelayInMs]` (non-negativity is automatic for the natural-number
model), and whenever no integer-parsing `Retry-After` hint is present
the delay returned by `calculateRetryDelay` is non-negative; integer
hints, by contrast, are returned as `k * 1000` unclamped. -/
theorem C2_delay_clamped_default_path :
    (∀ (opts : RetryOptions) (n : ℕ),
        calculateDefaultDelay opts n ≤ opts.maxDelayInMs)
    ∧ (∀ (opts : RetryOptions) (dateParse : String → Option ℤ) (now : ℤ)
        (n : ℕ) (headers : Option HeadersObj),
        (∀ s, headers.bind HeadersObj.retryAfter = some s →
          jsParseInt s = none) →
        0 ≤ (calculateRetryDelay opts dateParse now n headers).1) := by
  constructor
  · intro opts n
    exact min_le_right _ _
  · intro opts dateParse now n headers hnoint
    match headers with
    | none => simp [calculateRetryDelay]
    | some h =>
      match hh : h.retryAfter with
      | none => simp [calculateRetryDelay, hh]
      | some s =>
        have hint : jsParseInt s = none := hnoint s (by simp [hh])
        rcases eq_or_ne s "" with rfl | hne
        · simp [calculateRetryDelay, hh]
        · simp only [calculateRetryDelay, hh, hne, hint, if_pos, ite_not]
          match hd : dateParse s with
          | none => simp [hd]
          | some t =>
            by_cases ht : t > 0
            · simp [hd, ht]
            · simp [hd, ht]

/-- Closed instance of `C2_delay_clamped_default_path`: the default delay
for attempt 2 is within the cap, and a header-less computation at
attempt 2 is non-negative. -/
theorem C2_delay_clamped_default_path_witness :
    calculateDefaultDelay defaultRetryOptions 2 ≤
        defaultRetryOptions.maxDelayInMs
    ∧ 0 ≤ (calculateRetryDelay defaultRetryOptions (fun _ => none) 0 2
        none).1 :=
  ⟨C2_delay_clamped_default_path.1 defaultRetryOptions 2,
   C2_delay_clamped_default_path.2 defaultRetryOptions (fun _ => none) 0 2
      none (fun s hs => Option.noConfusion hs)⟩

/-! ### Error classifier -/

/-- C8: the default classifier draws candidate status codes from the
five fixed locations of `rawCandidates`, coercing numbers and
`parseInt`-able strings to integers and discarding the rest; a value is
rate-limited exactly when some candidate coerces to 429 and a
client-side error exactly when some candidate coerces into
`[400, 500)`, the two verdicts being computed independently.  (The
source's `filter(Boolean)` additionally drops a literal `0` candidate,
which affects neither verdict.) -/
theorem C8_default_classifier_verdicts :
    ∀ v : ErrObj,
      (isRateLimitedError v = true ↔
        ∃ c ∈ rawCandidates v, coerceStatus c = some 429)
      ∧ (isClientSideError v = true ↔
        ∃ c ∈ rawCandidates v, ∃ k : ℤ,
          coerceStatus c = some k ∧ 400 ≤ k ∧ k < 500) := by
  intro v
  constructor
  · simp only [isRateLimitedError, extractStatusCodeProperties,
      List.any_eq_true, List.mem_filter, List.mem_filterMap,
      decide_eq_true_eq]
    constructor
    · rintro ⟨n, ⟨⟨c, hc, hco⟩, -⟩, h429⟩
      exact ⟨c, hc, by rw [hco, h429]⟩
    · rintro ⟨c, hc, hco⟩
      exact ⟨429, ⟨⟨c, hc, hco⟩, by decide⟩, rfl⟩
  · simp only [isClientSideError, extractStatusCodeProperties,
      List.any_eq_true, List.mem_filter, List.mem_filterMap,
      Bool.and_eq_true, decide_eq_true_eq]
    constructor
    · rintro ⟨n, ⟨⟨c, hc, hco⟩, -⟩, h1, h2⟩
      exact ⟨c, hc, n, hco, h1, h2⟩
    · rintro ⟨c, hc, k, hco, h1, h2⟩
      exact ⟨k, ⟨⟨c, hc, hco⟩, by omega⟩, h1, h2⟩

/-! ### Retry engine -/

/-- Unfolding of the `tryCount > maxRetries + 1` guard of
`executeWithRetry`: the stored error is re-thrown, otherwise the stored
response is returned, and the operation is not invoked. -/
theorem executeWithRetry_guard {α ε : Type} (maxRetries : ℕ)
    (idR : α → Verdict) (idE : ε → Verdict) (fn : ℕ → Outcome α ε)
    (tryCount : ℕ) (lastR : Option α) (lastE : Option ε)
    (h : tryCount > maxRetries + 1) :
    executeWithRetry maxRetries idR idE fn tryCount lastR lastE =
      (match lastE with
       | some e => (.error e, [])
       | none => (.ok lastR, [])) := by
  rw [executeWithRetry.eq_def]
  simp [h]

/-- A run entered at an attempt number within the cap invokes the
operation at least once. -/
theorem executeWithRetry_trace_ne_nil {α ε : Type} (maxRetries : ℕ)
    (idR : α → Verdict) (idE : ε → Verdict) (fn : ℕ → Outcome α ε)
    (tryCount : ℕ) (lastR : Option α) (lastE : Option ε)
    (h : tryCount ≤ maxRetries + 1) :
    (executeWithRetry maxRetries idR idE fn tryCount lastR lastE).2 ≠ [] := by
  rw [executeWithRetry.eq_def]
  have h' : ¬ tryCount > maxRetries + 1 := by omega
  simp only [h', dite_false, dif_neg]
  match hfn : fn tryCount with
  | .resolved r =>
    by_cases h2 : tryCount = maxRetries + 1
    · simp [h2]
    · by_cases hrl : (idR r).isRateLimited
      · simp only [h2, dite_false, dif_neg, hrl, if_true]
        rcases hrest : executeWithRetry maxRetries idR idE fn (tryCount + 1)
            (some r) lastE with ⟨err | v, trace⟩
        · by_cases hv : (idE err).isClientSideError = true
              ∧ (idE err).isRateLimited = false
          · simp [hrest, h2, hv]
          · simp [hrest, h2, hv]
        · simp [hrest]
      · simp [h2, hrl]
  | .rejected e =>
    by_cases h2 : tryCount = maxRetries + 1
    · simp [h2]
    · by_cases hv : ((idE e).isClientSideError && !(idE e).isRateLimited)
      · simp [h2, hv]
      · simp [h2, hv]

/-- A rejection before the last permitted attempt whose verdict is
client-side-and-not-rate-limited re-throws the error at once. -/
theorem executeWithRetry_rejected_terminal {α ε : Type} (maxRetries : ℕ)
    (idR : α → Verdict) (idE : ε → Verdict) (fn : ℕ → Outcome α ε)
    (tryCount : ℕ) (lastR : Option α) (lastE : Option ε) (e : ε)
    (h1 : tryCount < maxRetries + 1) (hfn : fn tryCount = .rejected e)
    (hcs : (idE e).isClientSideError = true)
    (hrl : (idE e).isRateLimited = false) :
    executeWithRetry maxRetries idR idE fn tryCount lastR lastE =
      (.error e, [tryCount]) := by
  rw [executeWithRetry.eq_def]
  have h' : ¬ tryCount > maxRetries + 1 := by omega
  have h2 : tryCount ≠ maxRetries + 1 := by omega
  simp [h', h2, hfn, hcs, hrl]

/-- A rejection at the last permitted attempt re-throws the error. -/
theorem executeWithRetry_rejected_last {α ε : Type} (maxRetries : ℕ)
    (idR : α → Verdict) (idE : ε → Verdict) (fn : ℕ → Outcome α ε)
    (tryCount : ℕ) (lastR : Option α) (lastE : Option ε) (e : ε)
    (h2 : tryCount = maxRetries + 1) (hfn : fn tryCount = .rejected e) :
    executeWithRetry maxRetries idR idE fn tryCount lastR lastE =
      (.error e, [tryCount]) := by
  subst h2
  rw [executeWithRetry.eq_def]
  simp [hfn]

/-- A rejection before the last permitted attempt whose verdict is not
client-side-and-not-rate-limited recurses with the next attempt number,
storing the error. -/
theorem executeWithRetry_rejected_retry {α ε : Type} (maxRetries : ℕ)
    (idR : α → Verdict) (idE : ε → Verdict) (fn : ℕ → Outcome α ε)
    (tryCount : ℕ) (lastR : Option α) (lastE : Option ε) (e : ε)
    (h1 : tryCount < maxRetries + 1) (hfn : fn tryCount = .rejected e)
    (hv : ((idE e).isClientSideError && !(idE e).isRateLimited) = false) :
    executeWithRetry maxRetries idR idE fn tryCount lastR lastE =
      ((executeWithRetry maxRetries idR idE fn (tryCount + 1) lastR
          (some e)).1,
        tryCount :: (executeWithRetry maxRetries idR idE fn (tryCount + 1)
          lastR (some e)).2) := by
  rw [executeWithRetry.eq_def]
  have h' : ¬ tryCount > maxRetries + 1 := by omega
  have h2 : tryCount ≠ maxRetries + 1 := by omega
  simp [h', h2, hfn, hv]

/-- A run whose operation always rejects with a retry-eligible error
attempts every number from the entry attempt up to `maxRetries + 1`,
then re-throws the error.  `fuel` bounds the induction. -/
theorem executeWithRetry_always_rejected {α ε : Type} (maxRetries : ℕ)
    (idR : α → Verdict) (idE : ε → Verdict) (fn : ℕ → Outcome α ε) (e : ε)
    (hfn : ∀ n, fn n = .rejected e)
    (hv : ((idE e).isClientSideError && !(idE e).isRateLimited) = false) :
    ∀ (fuel tryCount : ℕ) (lastR : Option α) (lastE : Option ε),
      maxRetries + 1 - tryCount ≤ fuel → tryCount ≤ maxRetries + 1 →
      executeWithRetry maxRetries idR idE fn tryCount lastR lastE =
        (.error e, List.range' tryCount (maxRetries + 2 - tryCount)) := by
  intro fuel
  induction fuel with
  | zero =>
    intro tryCount lastR lastE hfuel hle
    have h2 : tryCount = maxRetries + 1 := by omega
    subst h2
    rw [executeWithRetry.eq_def]
    simp [hfn]
  | succ fuel ih =>
    intro tryCount lastR lastE hfuel hle
    by_cases h2 : tryCount = maxRetries + 1
    · subst h2
      rw [executeWithRetry.eq_def]
      simp [hfn]
    · rw [executeWithRetry_rejected_retry maxRetries idR idE fn tryCount
        lastR lastE e (by omega) (hfn tryCount) hv]
      rw [ih (tryCount + 1) lastR (some e) (by omega) (by omega)]
      have hk : maxRetries + 2 - tryCount =
          (maxRetries + 2 - (tryCount + 1)) + 1 := by
        omega
      rw [hk, List.range'_succ]

/-- A run whose operation always resolves with a rate-limited-classified
result attempts every number from the entry attempt up to
`maxRetries + 1`, then returns the result of the last attempt without
classification. -/
theorem executeWithRetry_always_rate_limited {α ε : Type} (maxRetries : ℕ)
    (idR : α → Verdict) (idE : ε → Verdict) (fn : ℕ → Outcome α ε)
    (res : ℕ → α)
    (hfn : ∀ n, fn n = .resolved (res n))
    (hrl : ∀ n, (idR (res n)).isRateLimited = true) :
    ∀ (fuel tryCount : ℕ) (lastR : Option α) (lastE : Option ε),
      maxRetries + 1 - tryCount ≤ fuel → tryCount ≤ maxRetries + 1 →
      executeWithRetry maxRetries idR idE fn tryCount lastR lastE =
        (.ok (some (res (maxRetries + 1))),
          List.range' tryCount (maxRetries + 2 - tryCount)) := by
  intro fuel
  induction fuel with
  | zero =>
    intro tryCount lastR lastE hfuel hle
    have h2 : tryCount = maxRetries + 1 := by omega
    subst h2
    rw [executeWithRetry.eq_def]
    simp [hfn]
  | succ fuel ih =>
    intro tryCount lastR lastE hfuel hle
    by_cases h2 : tryCount = maxRetries + 1
    · subst h2
      rw [executeWithRetry.eq_def]
      simp [hfn]
    · rw [executeWithRetry.eq_def]
      have h' : ¬ tryCount > maxRetries + 1 := by omega
      simp only [h', dif_neg, hfn tryCount, h2, dite_false]
      rw [ih (tryCount + 1) (some (res tryCount)) lastE (by omega) (by omega)]
      have hk : maxRetries + 2 - tryCount =
          (maxRetries + 2 - (tryCount + 1)) + 1 := by
        omega
      rw [hk, List.range'_succ]
      simp [hrl tryCount]

/-- C3: before the last permitted attempt, a rejected attempt is
terminal — the error re-raised at once with no further invocations — if
and only if the verdict is client-side-error and not rate-limited; a
call always rejecting with a 404-classified error is attempted exactly
once and its error raised; an error classified both rate-limited and
client-side is retried (rate-limited takes precedence). -/
theorem C3_client_error_terminal_iff :
    (∀ {α ε : Type} (maxRetries : ℕ) (idR : α → Verdict) (idE : ε → Verdict)
        (fn : ℕ → Outcome α ε) (tryCount : ℕ) (lastR : Option α)
        (lastE : Option ε) (e : ε),
        tryCount < maxRetries + 1 → fn tryCount = .rejected e →
        (executeWithRetry maxRetries idR idE fn tryCount lastR lastE =
            (.error e, [tryCount]) ↔
          (idE e).isClientSideError = true ∧ (idE e).isRateLimited = false))
    ∧ (∀ (maxRetries : ℕ) (fn : ℕ → Outcome ErrObj ErrObj) (e : ErrObj),
        (∀ n, fn n = .rejected e) →
        isClientSideError e = true → isRateLimitedError e = false →
        executeWithRetry maxRetries defaultIdentifyResult defaultIdentifyError
            fn 1 none none = (.error e, [1]))
    ∧ (∀ {α ε : Type} (maxRetries : ℕ) (idR : α → Verdict) (idE : ε → Verdict)
        (fn : ℕ → Outcome α ε) (tryCount : ℕ) (lastR : Option α)
        (lastE : Option ε) (e : ε),
        tryCount < maxRetries + 1 → fn tryCount = .rejected e →
        (idE e).isClientSideError = true → (idE e).isRateLimited = true →
        executeWithRetry maxRetries idR idE fn tryCount lastR lastE =
          ((executeWithRetry maxRetries idR idE fn (tryCount + 1) lastR
              (some e)).1,
            tryCount :: (executeWithRetry maxRetries idR idE fn (tryCount + 1)
              lastR (some e)).2)) := by
  refine ⟨?_, ?_, ?_⟩
  · intro α ε maxRetries idR idE fn tryCount lastR lastE e h1 hfn
    constructor
    · intro heq
      by_contra hnv
      have hv : ((idE e).isClientSideError && !(idE e).isRateLimited) = false := by
        cases hcs : (idE e).isClientSideError <;>
          cases hrl : (idE e).isRateLimited <;> simp_all
      rw [executeWithRetry_rejected_retry maxRetries idR idE fn tryCount
        lastR lastE e h1 hfn hv] at heq
      have hne := executeWithRetry_trace_ne_nil maxRetries idR idE fn
        (tryCount + 1) lastR (some e) (by omega)
      have htr : tryCount :: (executeWithRetry maxRetries idR idE fn
          (tryCount + 1) lastR (some e)).2 = [tryCount] :=
        congrArg Prod.snd heq
      simp at htr
      exact hne htr
    · rintro ⟨hcs, hrl⟩
      exact executeWithRetry_rejected_terminal maxRetries idR idE fn tryCount
        lastR lastE e h1 hfn hcs hrl
  · intro maxRetries fn e hfn hcs hrl
    by_cases h1 : 1 < maxRetries + 1
    · exact executeWithRetry_rejected_terminal maxRetries _ _ fn 1 none none e
        h1 (hfn 1) (by simp [defaultIdentifyError, hcs])
        (by simp [defaultIdentifyError, hrl])
    · exact executeWithRetry_rejected_last maxRetries _ _ fn 1 none none e
        (by omega) (hfn 1)
  · intro α ε maxRetries idR idE fn tryCount lastR lastE e h1 hfn hcs hrl
    exact executeWithRetry_rejected_retry maxRetries idR idE fn tryCount
      lastR lastE e h1 hfn (by simp [hcs, hrl])

/-- Closed instance of `C3_client_error_terminal_iff`: a 404-status
error is attempted once and raised; a 429-status error (classified both
rate-limited and client-side by the default classifier) is retried. -/
theorem C3_client_error_terminal_iff_witness :
    executeWithRetry 3 defaultIdentifyResult defaultIdentifyError
        (fun _ => .rejected sample404) 1 none none = (.error sample404, [1])
    ∧ executeWithRetry 3 defaultIdentifyResult defaultIdentifyError
        (fun _ => .rejected sample429) 1 none none =
      ((executeWithRetry 3 defaultIdentifyResult defaultIdentifyError
          (fun _ => .rejected sample429) 2 none (some sample429)).1,
        1 :: (executeWithRetry 3 defaultIdentifyResult defaultIdentifyError
          (fun _ => .rejected sample429) 2 none (some sample429)).2) :=
  ⟨C3_client_error_terminal_iff.2.1 3 _ sample404 (fun _ => rfl) (by decide)
      (by decide),
   C3_client_error_terminal_iff.2.2 3 defaultIdentifyResult
      defaultIdentifyError _ 1 none none sample429 (by decide) rfl
      (by decide) (by decide)⟩

/-- C4 is violated by the source: the `.catch` chained after `.then`
intercepts a rejection of the nested retry run started by a
rate-limited resolution and retries again at the same attempt number.
With `maxRetries = 3` and an operation resolving with a 429-status
result at attempt 1 and rejecting with a status-less error on every
later attempt, the operation is invoked seven times, at attempt
numbers 1, 2, 3, 4, 2, 3, 4 — neither monotone nor within the cap of
`maxRetries + 1 = 4` total attempts — before the final error is
re-raised. -/
theorem C4_mixed_run_exceeds_cap :
    executeWithRetry 3 defaultIdentifyResult defaultIdentifyError mixedFn 1
        none none = (.error sampleGeneric, [1, 2, 3, 4, 2, 3, 4])
    ∧ 3 + 1 <
      (executeWithRetry 3 defaultIdentifyResult defaultIdentifyError mixedFn 1
        none none).2.length := by
  have h429 : defaultIdentifyResult sample429 =
      { isRateLimited := true, isClientSideError := true } := by decide
  have hgen : defaultIdentifyError sampleGeneric =
      { isRateLimited := false, isClientSideError := false } := by decide
  have hres : executeWithRetry 3 defaultIdentifyResult defaultIdentifyError
      mixedFn 1 none none = (.error sampleGeneric, [1, 2, 3, 4, 2, 3, 4]) := by
    simp [executeWithRetry.eq_def, mixedFn, h429, hgen]
  exact ⟨hres, by rw [hres]; decide⟩

/-- C5: a call whose operation always resolves with a rate-limited
result is attempted at every number up to `maxRetries + 1` and then
resolves with the last such result without raising; in the exhaustion
guard a stored error is re-raised while, absent one, the stored
(rate-limited) response is returned instead of raising. -/
theorem C5_rate_limited_resolution_cap :
    (∀ {α ε : Type} (maxRetries : ℕ) (idR : α → Verdict) (idE : ε → Verdict)
        (fn : ℕ → Outcome α ε) (res : ℕ → α),
        (∀ n, fn n = .resolved (res n)) →
        (∀ n, (idR (res n)).isRateLimited = true) →
        executeWithRetry maxRetries idR idE fn 1 none none =
          (.ok (some (res (maxRetries + 1))), List.range' 1 (maxRetries + 1)))
    ∧ (∀ {α ε : Type} (maxRetries : ℕ) (idR : α → Verdict) (idE : ε → Verdict)
        (fn : ℕ → Outcome α ε) (tryCount : ℕ) (lastR : Option α) (e : ε),
        tryCount > maxRetries + 1 →
        executeWithRetry maxRetries idR idE fn tryCount lastR (some e) =
          (.error e, []))
    ∧ (∀ {α ε : Type} (maxRetries : ℕ) (idR : α → Verdict) (idE : ε → Verdict)
        (fn : ℕ → Outcome α ε) (tryCount : ℕ) (lastR : Option α),
        tryCount > maxRetries + 1 →
        executeWithRetry maxRetries idR idE fn tryCount lastR none =
          (.ok lastR, [])) := by
  refine ⟨?_, ?_, ?_⟩
  · intro α ε maxRetries idR idE fn res hfn hrl
    exact executeWithRetry_always_rate_limited maxRetries idR idE fn res
      hfn hrl maxRetries 1 none none (by omega) (by omega)
  · intro α ε maxRetries idR idE fn tryCount lastR e hg
    rw [executeWithRetry_guard maxRetries idR idE fn tryCount lastR (some e) hg]
  · intro α ε maxRetries idR idE fn tryCount lastR hg
    rw [executeWithRetry_guard maxRetries idR idE fn tryCount lastR none hg]

/-- Closed instance of `C5_rate_limited_resolution_cap`: an operation
always resolving with a 429-status result under the default classifier
is attempted at 1–4 and the call returns the last result; the
exhaustion guard re-raises a stored error. -/
theorem C5_rate_limited_resolution_cap_witness :
    executeWithRetry 3 defaultIdentifyResult defaultIdentifyError
        (fun _ => .resolved sample429) 1 none none =
      (.ok (some sample429), List.range' 1 4)
    ∧ executeWithRetry 3 defaultIdentifyResult defaultIdentifyError
        (fun _ => .resolved sample429) 5 none (some sampleGeneric) =
      (.error sampleGeneric, []) :=
  ⟨C5_rate_limited_resolution_cap.1 3 defaultIdentifyResult
      defaultIdentifyError _ (fun _ => sample429) (fun _ => rfl)
      (fun _ =>
        (by decide : (defaultIdentifyResult sample429).isRateLimited = true)),
   C5_rate_limited_resolution_cap.2.1 3 defaultIdentifyResult
      defaultIdentifyError _ 5 none sampleGeneric (by decide)⟩

/-- C10: a value whose only status-bearing field is the camelCase
`statusCode` spelling produces no candidates in
`extractStatusCodeProperties` (the five consulted locations are
`status`, `response.status`, `statuscode`, `response.statuscode` and
`code`), both classifiers return `false`, and a rejection carrying such
a value before the last permitted attempt is retried as an unknown
error rather than treated as terminal or rate-limited. -/
theorem C10_camelcase_field_ignored :
    ∀ v : ErrObj, v.status = none → v.statuscode = none → v.code = none →
      v.response = none →
      extractStatusCodeProperties v = []
      ∧ isClientSideError v = false
      ∧ isRateLimitedError v = false
      ∧ ∀ (maxRetries tryCount : ℕ) (fn : ℕ → Outcome ErrObj ErrObj)
          (lastR lastE : Option ErrObj),
          tryCount < maxRetries + 1 → fn tryCount = .rejected v →
          executeWithRetry maxRetries defaultIdentifyResult
              defaultIdentifyError fn tryCount lastR lastE =
            ((executeWithRetry maxRetries defaultIdentifyResult
                defaultIdentifyError fn (tryCount + 1) lastR (some v)).1,
              tryCount :: (executeWithRetry maxRetries defaultIdentifyResult
                defaultIdentifyError fn (tryCount + 1) lastR (some v)).2) := by
  intro v h1 h2 h3 h4
  have hext : extractStatusCodeProperties v = [] := by
    simp [extractStatusCodeProperties, rawCandidates, h1, h2, h3, h4,
      coerceStatus]
  have hcse : isClientSideError v = false := by
    simp [isClientSideError, hext]
  have hrle : isRateLimitedError v = false := by
    simp [isRateLimitedError, hext]
  refine ⟨hext, hcse, hrle, ?_⟩
  intro maxRetries tryCount fn lastR lastE hlt hfn
  exact executeWithRetry_rejected_retry maxRetries _ _ fn tryCount lastR
    lastE v hlt hfn (by simp [defaultIdentifyError, hcse])

/-- Closed instance of `C10_camelcase_field_ignored` at
`{statusCode: 404}`. -/
theorem C10_camelcase_field_ignored_witness :
    extractStatusCodeProperties sampleCamel404 = []
    ∧ isClientSideError sampleCamel404 = false
    ∧ isRateLimitedError sampleCamel404 = false
    ∧ executeWithRetry 3 defaultIdentifyResult defaultIdentifyError
        (fun _ => .rejected sampleCamel404) 1 none none =
      ((executeWithRetry 3 defaultIdentifyResult defaultIdentifyError
          (fun _ => .rejected sampleCamel404) 2 none (some sampleCamel404)).1,
        1 :: (executeWithRetry 3 defaultIdentifyResult defaultIdentifyError
          (fun _ => .rejected sampleCamel404) 2 none
            (some sampleCamel404)).2) :=
  have h := C10_camelcase_field_ignored sampleCamel404 rfl rfl rfl rfl
  ⟨h.1, h.2.1, h.2.2.1,
   h.2.2.2 3 1 (fun _ => .rejected sampleCamel404) none none (by decide) rfl⟩

/-! ### Admission queue -/

/-- `processTaskQueue` on an empty queue does nothing. -/
theorem processTaskQueue_nil (c : ℕ) (s : CallerState) (h : s.queue = []) :
    processTaskQueue c s = s := by
  rw [processTaskQueue.eq_def]
  split
  · rfl
  next i rest heq =>
    rw [h] at heq
    cases heq

/-- One iteration of the dispatch loop: given a free slot, the oldest
queued call is admitted and the loop continues. -/
theorem processTaskQueue_cons (c : ℕ) (s : CallerState) (i : ℕ)
    (rest : List ℕ) (h : s.queue = i :: rest) (hr : s.runningTasks < c) :
    processTaskQueue c s = processTaskQueue c
      { s with
        queue := rest,
        runningTasks := s.runningTasks + 1,
        admitted := s.admitted ++ [i],
        startedOrder := s.startedOrder ++ [i] } := by
  conv_lhs => rw [processTaskQueue.eq_def]
  split
  next heq =>
    rw [h] at heq
    cases heq
  next i' rest' heq =>
    rw [h] at heq
    injection heq with hi hrest
    subst hi
    subst hrest
    simp [hr]

/-- `processTaskQueue` with all slots occupied does nothing. -/
theorem processTaskQueue_full (c : ℕ) (s : CallerState)
    (hr : ¬ s.runningTasks < c) :
    processTaskQueue c s = s := by
  rw [processTaskQueue.eq_def]
  split
  · rfl
  next i' rest' heq =>
    simp [hr]

/-- Full characterisation of the dispatch loop: it admits some prefix of
the queue, oldest first, and admits at least one call whenever a slot
is free and the queue non-empty.  `fuel` bounds the induction by the
queue length. -/
theorem processTaskQueue_spec (c : ℕ) :
    ∀ (fuel : ℕ) (s : CallerState), s.queue.length ≤ fuel →
      ∃ k,
        processTaskQueue c s =
          { s with
            queue := s.queue.drop k,
            runningTasks := s.runningTasks + k,
            admitted := s.admitted ++ s.queue.take k,
            startedOrder := s.startedOrder ++ s.queue.take k }
        ∧ (s.runningTasks < c → s.queue ≠ [] → 1 ≤ k) := by
  intro fuel
  induction fuel with
  | zero =>
    intro s hlen
    have hq : s.queue = [] := by
      cases hq2 : s.queue with
      | nil => rfl
      | cons i rest => rw [hq2] at hlen; simp at hlen
    refine ⟨0, ?_, ?_⟩
    · rw [processTaskQueue_nil c s hq]
      obtain ⟨q, rt, ad, wt, fl, dn, so, ni⟩ := s
      simp only at hq
      subst hq
      simp
    · intro hrc hne
      exact absurd hq hne
  | succ fuel ih =>
    intro s hlen
    cases hq : s.queue with
    | nil =>
      refine ⟨0, ?_, ?_⟩
      · rw [processTaskQueue_nil c s hq]
        obtain ⟨q, rt, ad, wt, fl, dn, so, ni⟩ := s
        simp only at hq
        subst hq
        simp
      · intro hrc hne
        exact absurd rfl hne
    | cons i rest =>
      by_cases hr : s.runningTasks < c
      · rw [processTaskQueue_cons c s i rest hq hr]
        obtain ⟨k, hk, -⟩ := ih
          { s with
            queue := rest,
            runningTasks := s.runningTasks + 1,
            admitted := s.admitted ++ [i],
            startedOrder := s.startedOrder ++ [i] }
          (by simp; rw [hq] at hlen; simp at hlen; omega)
        refine ⟨k + 1, ?_, fun _ _ => by omega⟩
        rw [hk]
        obtain ⟨q, rt, ad, wt, fl, dn, so, ni⟩ := s
        simp only at hq
        subst hq
        simp [List.append_assoc]
        omega
      · rw [processTaskQueue_full c s hr]
        refine ⟨0, ?_, fun h => absurd h hr⟩
        obtain ⟨q, rt, ad, wt, fl, dn, so, ni⟩ := s
        simp only at hq
        subst hq
        simp

/-- The dispatch loop moves calls from the queue to the started order
without inventing or dropping any, and never touches `nextId`. -/
theorem processTaskQueue_preserves (c : ℕ) (s : CallerState) :
    (processTaskQueue c s).startedOrder ++ (processTaskQueue c s).queue =
      s.startedOrder ++ s.queue
    ∧ (processTaskQueue c s).nextId = s.nextId := by
  obtain ⟨k, hk, -⟩ := processTaskQueue_spec c s.queue.length s le_rfl
  rw [hk]
  constructor
  · show (s.startedOrder ++ s.queue.take k) ++ s.queue.drop k =
      s.startedOrder ++ s.queue
    rw [List.append_assoc, List.take_append_drop]
  · rfl

/-- In every reachable state, the calls already granted slots followed
by the still-queued calls are exactly the submissions in arrival
order. -/
theorem reachable_started_fifo (c : ℕ) (s : CallerState)
    (h : Reachable c s) :
    s.startedOrder ++ s.queue = List.range s.nextId := by
  induction h with
  | refl => rfl
  | tail hab hbc ih =>
    rename_i b sfin
    cases hbc with
    | submit =>
      obtain ⟨hcat, hnid⟩ := processTaskQueue_preserves c
        { b with queue := b.queue ++ [b.nextId], nextId := b.nextId + 1 }
      rw [hcat, hnid]
      show b.startedOrder ++ (b.queue ++ [b.nextId]) =
        List.range (b.nextId + 1)
      rw [← List.append_assoc, ih, List.range_succ]
    | release id hid =>
      obtain ⟨hcat, hnid⟩ := processTaskQueue_preserves c
        { b with
          admitted := b.admitted.erase id,
          waitingToken := b.waitingToken ++ [id],
          runningTasks := b.runningTasks - 1 }
      rw [hcat, hnid]
      exact ih
    | grantToken id hid => exact ih
    | finishOp id hid => exact ih

/-- C9: concurrency slots are granted in strict FIFO arrival order — in
every reachable state the start order followed by the queue is exactly
the arrival order `0, 1, 2, ...` — and every run of the dispatch step
admits a prefix of the queue (oldest first), admitting at least the
oldest pending submission whenever a slot is free and the queue is
non-empty. -/
theorem C9_fifo_admission :
    (∀ (c : ℕ) (s : CallerState), Reachable c s →
        s.startedOrder ++ s.queue = List.range s.nextId)
    ∧ (∀ (c : ℕ) (s : CallerState), ∃ k,
        (processTaskQueue c s).startedOrder = s.startedOrder ++ s.queue.take k
        ∧ (processTaskQueue c s).queue = s.queue.drop k
        ∧ (s.runningTasks < c → s.queue ≠ [] → 1 ≤ k)) := by
  constructor
  · exact reachable_started_fifo
  · intro c s
    obtain ⟨k, hk, hcond⟩ := processTaskQueue_spec c s.queue.length s le_rfl
    refine ⟨k, ?_, ?_, hcond⟩
    · rw [hk]
    · rw [hk]

/-- Closed instance of `C9_fifo_admission` at the state reached by one
submission to a fresh instance with `concurrency = 2`. -/
theorem C9_fifo_admission_witness :
    exampleSubmitted.startedOrder ++ exampleSubmitted.queue =
      List.range exampleSubmitted.nextId :=
  C9_fifo_admission.1 2 exampleSubmitted
    (Relation.ReflTransGen.single
      (by simpa [processTaskQueue.eq_def, initState, exampleSubmitted] using
        @Step.submit 2 initState))

/-- C1 is violated by the source: because `executeAndHandleErrors`
returns the `executeWithRetry` promise from inside `try` without
awaiting it, the `finally` releases the concurrency slot as soon as the
retry loop first suspends.  Under `concurrency = 1`, submitting two
calls leads — along the deterministic event-loop schedule — to a
reachable state in which both wrapped operations are in flight at
once. -/
theorem C1_concurrency_exceeded_trace :
    Reachable 1 traceState6 ∧ traceState6.inFlight.length = 2 := by
  constructor
  · have h1 : Step 1 initState traceState1 := by
      have e : processTaskQueue 1
          { initState with
            queue := initState.queue ++ [initState.nextId],
            nextId := initState.nextId + 1 } = traceState1 := by
        simp [processTaskQueue.eq_def, initState, traceState1]
      exact e ▸ @Step.submit 1 initState
    have h2 : Step 1 traceState1 traceState2 := by
      have e : processTaskQueue 1
          { traceState1 with
            queue := traceState1.queue ++ [traceState1.nextId],
            nextId := traceState1.nextId + 1 } = traceState2 := by
        simp [processTaskQueue.eq_def, traceState1, traceState2]
      exact e ▸ @Step.submit 1 traceState1
    have h3 : Step 1 traceState2 traceState3 := by
      have e : processTaskQueue 1
          { traceState2 with
            admitted := traceState2.admitted.erase 0,
            waitingToken := traceState2.waitingToken ++ [0],
            runningTasks := traceState2.runningTasks - 1 } = traceState3 := by
        simp [processTaskQueue.eq_def, traceState2, traceState3]
      exact e ▸ @Step.release 1 traceState2 0 (by decide)
    have h4 : Step 1 traceState3 traceState4 := by
      have e : processTaskQueue 1
          { traceState3 with
            admitted := traceState3.admitted.erase 1,
            waitingToken := traceState3.waitingToken ++ [1],
            runningTasks := traceState3.runningTasks - 1 } = traceState4 := by
        simp [processTaskQueue.eq_def, traceState3, traceState4]
      exact e ▸ @Step.release 1 traceState3 1 (by decide)
    have h5 : Step 1 traceState4 traceState5 := by
      have e : { traceState4 with
            waitingToken := traceState4.waitingToken.erase 0,
            inFlight := traceState4.inFlight ++ [0] } = traceState5 := by
        simp [traceState4, traceState5]
      exact e ▸ @Step.grantToken 1 traceState4 0 (by decide)
    have h6 : Step 1 traceState5 traceState6 := by
      have e : { traceState5 with
            waitingToken := traceState5.waitingToken.erase 1,
            inFlight := traceState5.inFlight ++ [1] } = traceState6 := by
        simp [traceState5, traceState6]
      exact e ▸ @Step.grantToken 1 traceState5 1 (by decide)
    exact Relation.ReflTransGen.tail
      (Relation.ReflTransGen.tail
        (Relation.ReflTransGen.tail
          (Relation.ReflTransGen.tail
            (Relation.ReflTransGen.tail
              (Relation.ReflTransGen.single h1) h2) h3) h4) h5) h6
  · decide

end AsyncCaller
